import Mathlib

/-!
Verification of the ABACOM USB relay board driver
(`src/abacomrelay_driver/abacomrelay.c`).

The driver is embedded shallowly: the transport (`usb_bulk_msg`) is an
oracle `Nat → Option Nat` giving, for the n-th frame of a command
sequence, either `none` (the bulk transfer itself failed) or
`some len` (the transfer succeeded and acknowledged `len` bytes).
Machine integers are `Nat` with explicit reductions where the C code
truncates (`% 2 ^ 64` for `unsigned long`, `% 256` for `__u8`).
-/

set_option maxRecDepth 1000000

namespace AbacomRelay

/-- The frame length constant `RELAY_CMD_LENGTH` (11 bytes). -/
def RELAY_CMD_LENGTH : Nat := 11

/-- The macro `RELAY_CMD(b)`: the 11-byte command frame
`{0xa1,0x6a,0x1f,0x00,0x10,b,0x3f,0x00,0x00,0x00,0x00}`. -/
def RELAY_CMD (b : Nat) : List Nat :=
  [0xa1, 0x6a, 0x1f, 0x00, 0x10, b, 0x3f, 0x00, 0x00, 0x00, 0x00]

/-- The value of `ULONG_MAX` for a 64-bit `unsigned long`. -/
def ULONG_MAX : Nat := 2 ^ 64 - 1

/-- The macro `RELAY_READ_FREQ_MAX = HZ / 2` (500 ms in jiffies). -/
def RELAY_READ_FREQ_MAX (HZ : Nat) : Nat := HZ / 2

/-- The state of `struct usb_relayboard` relevant to the claims:
`relay_states` is the shadow relay mask (`__u8`), and
`interface_present` models whether `dev->interface` is still non-NULL
(it is set to NULL by `relayboard_disconnect`). -/
structure UsbRelayboard where
  relay_states : Nat
  interface_present : Bool
deriving DecidableEq

/-- The state of `struct file_additions` relevant to the claims:
`last_call` is the jiffies value of the last data-delivering read
(zero-initialized by `kzalloc` in `relayboard_open`). -/
structure FileAdditions where
  last_call : Nat
deriving DecidableEq

/-- The operation `getMask` of the spec: the read of `dev->relay_states`
performed (under the mutex) by `relayboard_read`. -/
def getMask (dev : UsbRelayboard) : Nat := dev.relay_states

/-- Model of `send_relay_cmd` for the frame at (1-based) position `frameIndex` of a
command sequence: it fails (returns nonzero) when `usb_bulk_msg` fails, and
otherwise returns `actual_length != RELAY_CMD_LENGTH`.  `true` here means
the C function returned 0 (success). -/
def send_relay_cmd (tr : Nat → Option Nat) (frameIndex : Nat) : Bool :=
  match tr frameIndex with
  | none => false
  | some len => len == RELAY_CMD_LENGTH

/-- A transport on which every bulk transfer succeeds and acknowledges the
full frame length. -/
def allOk : Nat → Option Nat := fun _ => some RELAY_CMD_LENGTH

/-- Send a list of frame payloads in order, the first one carrying frame
index `i`.  Mirrors the early-exit structure of `relayboard_send_status`:
the result is `(success, payloads actually passed to send_relay_cmd)`,
stopping right after the first failing send. -/
def sendAll (tr : Nat → Option Nat) : Nat → List Nat → Bool × List Nat
  | _, [] => (true, [])
  | i, p :: ps =>
    if send_relay_cmd tr i then
      let r := sendAll tr (i + 1) ps
      (r.1, p :: r.2)
    else
      (false, [p])

/-- One iteration of the `for (mask = 128; mask > 0; mask >>= 1)` body of
`relayboard_send_status`: the payload triple for one relay bit. -/
def relayTriple (status mask : Nat) : List Nat :=
  if status &&& mask ≠ 0 then [0x20, 0x28, 0x20] else [0x00, 0x08, 0x00]

/-- The successive values taken by `mask` in the loop
`for (mask = 128; mask > 0; mask >>= 1)`. -/
def maskSeq : List Nat := [128, 64, 32, 16, 8, 4, 2, 1]

/-- The full payload sequence of one commit in `relayboard_send_status`:
header `0x00`, the eight bit triples, trailer `0x00, 0x01`. -/
def commitPayloads (status : Nat) : List Nat :=
  0x00 :: ((maskSeq.map (relayTriple status)).flatten ++ [0x00, 0x01])

/-- Model of `relayboard_send_status`: sends the commit sequence, aborting at the
first failing frame.  Returns `(return value, new relay_states, payloads
attempted)`.  On success (`0`) the shadow state becomes `status`
(`dev->relay_states = status`); on failure (`-EFAULT = -14`) it keeps its
prior value. -/
def relayboard_send_status (tr : Nat → Option Nat) (relay_states status : Nat) :
    Int × Nat × List Nat :=
  let r := sendAll tr 1 (commitPayloads status)
  if r.1 then (0, status, r.2) else (-14, relay_states, r.2)

/-- The frames emitted on the wire by one call of `relayboard_send_status`:
each attempted payload wrapped in `RELAY_CMD`. -/
def emittedFrames (tr : Nat → Option Nat) (relay_states status : Nat) : List (List Nat) :=
  ((relayboard_send_status tr relay_states status).2.2).map RELAY_CMD

/-- The digit-parsing loop of `simple_strtoul(local_buffer, NULL, 10)`:
accumulate decimal digits from the front of the buffer, stopping at the
first non-digit; the accumulator wraps like the C `unsigned long`. -/
def parseDigits : List Char → Nat → Nat
  | [], acc => acc
  | c :: cs, acc =>
    if c.isDigit then parseDigits cs ((acc * 10 + (c.toNat - 48)) % 2 ^ 64) else acc

/-- The value `user_data = (__u8) simple_strtoul(local_buffer, NULL, 10)`
computed by `relayboard_write`: parse, then keep the low 8 bits. -/
def userData (input : List Char) : Nat := parseDigits input 0 % 256

/-- Model of `relayboard_write` (the modelled path assumes the local-buffer
allocation and `copy_from_user` succeed; their failure paths return before
touching any state).  Parses the buffer, truncates to 8 bits, takes the
mutex and runs `relayboard_send_status`.  Returns `(return value, new
device state, payloads attempted)`; the return value is `count` on
success and `-EFAULT = -14` on failure.  Note that no liveness or
interface check is performed. -/
def relayboard_write (tr : Nat → Option Nat) (dev : UsbRelayboard)
    (user_buffer : List Char) (count : Nat) : Int × UsbRelayboard × List Nat :=
  let user_data := userData user_buffer
  let r := relayboard_send_status tr dev.relay_states user_data
  if r.1 = 0 then ((count : Int), { dev with relay_states := r.2.1 }, r.2.2)
  else (-14, { dev with relay_states := r.2.1 }, r.2.2)

/-- The wrap-around-aware elapsed-time computation of `relayboard_read`:
`if (infos->last_call > timestamp) time_passed = ULONG_MAX - last_call +
timestamp + 1; else time_passed = timestamp - last_call`. -/
def timePassed (last_call timestamp : Nat) : Nat :=
  if last_call > timestamp then ULONG_MAX - last_call + timestamp + 1
  else timestamp - last_call

/-- The characters produced by
`snprintf(state_str, 5, "%d\n", dev->relay_states)`:
the decimal rendering plus newline, truncated to 4 characters. -/
def stateChars (s : Nat) : List Char := ((Nat.repr s).toList ++ ['\n']).take 4

/-- Model of `relayboard_read`: refuse buffers under 4 bytes; throttle by
`RELAY_READ_FREQ_MAX`; otherwise format the shadow state, copy it out and
record `last_call := timestamp`.  `timestamp` is the `jiffies` value read
at entry, and `copyFail` is the number of bytes `copy_to_user` fails to
copy (0 when it fully succeeds).  Returns `(return value, new
file_additions, characters delivered)`. -/
def relayboard_read (HZ : Nat) (dev : UsbRelayboard) (infos : FileAdditions)
    (count timestamp copyFail : Nat) : Int × FileAdditions × List Char :=
  if count < 4 then (0, infos, [])
  else if timePassed infos.last_call timestamp < RELAY_READ_FREQ_MAX HZ then
    (0, infos, [])
  else
    let str := stateChars dev.relay_states
    let c := str.length - copyFail
    ((c : Int), ⟨timestamp⟩, str.take c)

/-- Model of `relayboard_open`, on the reference count: the arguments say
whether `usb_find_interface` succeeds, whether `usb_get_intfdata` is
non-NULL, and whether the `kzalloc` of `struct file_additions` succeeds;
`count` is the device's reference count before the call.  Returns
`(return value, new reference count, whether a handle was created)`.
The source calls `kref_get` before attempting the allocation and does not
release the reference on the allocation-failure path. -/
def relayboard_open (interface_found dev_present alloc_ok : Bool) (count : Nat) :
    Int × Nat × Bool :=
  if interface_found = false then (-19, count, false)
  else if dev_present = false then (-19, count, false)
  else if alloc_ok = false then (-12, count + 1, false)
  else (0, count + 1, true)

/-- The predicate "the transport succeeds on every frame of a 27-frame
commit": `relayboard_send_status` can only store a new mask under it. -/
def commitOk (tr : Nat → Option Nat) : Prop :=
  ∀ j, 1 ≤ j → j ≤ 27 → send_relay_cmd tr j = true

/-- Frame sequence stated by the spec (§4.2): header `encode(0x00)`; for
each bit position from value 128 down to value 1 the on-triple
`encode(0x20), encode(0x28), encode(0x20)` when the bit is set in
`targetMask` and the off-triple `encode(0x00), encode(0x08), encode(0x00)`
otherwise; trailer `encode(0x00), encode(0x01)`. -/
def claimFrames (targetMask : Nat) : List (List Nat) :=
  RELAY_CMD 0x00 ::
    (((List.range 8).map fun i =>
        if Nat.testBit targetMask (7 - i) then
          [RELAY_CMD 0x20, RELAY_CMD 0x28, RELAY_CMD 0x20]
        else
          [RELAY_CMD 0x00, RELAY_CMD 0x08, RELAY_CMD 0x00]).flatten
      ++ [RELAY_CMD 0x00, RELAY_CMD 0x01])

theorem relayTriple_length (status mask : Nat) : (relayTriple status mask).length = 3 := by
  unfold relayTriple
  split <;> rfl

theorem commitPayloads_length (status : Nat) : (commitPayloads status).length = 27 := by
  simp [commitPayloads, maskSeq, relayTriple_length]

theorem sendAll_ok (tr : Nat → Option Nat) :
    ∀ (l : List Nat) (i : Nat),
      (∀ j, i ≤ j → j < i + l.length → send_relay_cmd tr j = true) →
      sendAll tr i l = (true, l) := by
  intro l
  induction l with
  | nil => intro i _; rfl
  | cons p ps ih =>
    intro i h
    have h0 : send_relay_cmd tr i = true :=
      h i (Nat.le_refl i) (by simp [List.length_cons])
    have h1 : sendAll tr (i + 1) ps = (true, ps) := by
      apply ih (i + 1)
      intro j hj1 hj2
      exact h j (by omega) (by simp only [List.length_cons]; omega)
    simp [sendAll, h0, h1]

theorem sendAll_fail (tr : Nat → Option Nat) :
    ∀ (l : List Nat) (i n : Nat), n < l.length →
      (∀ j, j < n → send_relay_cmd tr (i + j) = true) →
      send_relay_cmd tr (i + n) = false →
      sendAll tr i l = (false, l.take (n + 1)) := by
  intro l
  induction l with
  | nil => intro i n hn _ _; simp at hn
  | cons p ps ih =>
    intro i n hn hok hf
    cases n with
    | zero =>
      have h0 : send_relay_cmd tr i = false := by simpa using hf
      simp [sendAll, h0]
    | succ n =>
      have h0 : send_relay_cmd tr i = true := by simpa using hok 0 (Nat.succ_pos n)
      have h1 : sendAll tr (i + 1) ps = (false, ps.take (n + 1)) := by
        apply ih (i + 1) n (by simp only [List.length_cons] at hn; omega)
        · intro j hj
          have h2 := hok (j + 1) (by omega)
          rwa [show i + (j + 1) = i + 1 + j by omega] at h2
        · rwa [show i + (n + 1) = i + 1 + n by omega] at hf
      simp [sendAll, h0, h1]

theorem sendAll_true_all (tr : Nat → Option Nat) :
    ∀ (l : List Nat) (i : Nat), (sendAll tr i l).1 = true →
      ∀ j, i ≤ j → j < i + l.length → send_relay_cmd tr j = true := by
  intro l
  induction l with
  | nil => intro i _ j h1 h2; simp at h2; omega
  | cons p ps ih =>
    intro i h j h1 h2
    by_cases h0 : send_relay_cmd tr i = true
    · rcases Nat.eq_or_lt_of_le h1 with rfl | hlt
      · exact h0
      · have h3 : (sendAll tr (i + 1) ps).1 = true := by
          simp only [sendAll, h0, if_true] at h
          exact h
        exact ih (i + 1) h3 j hlt (by simp only [List.length_cons] at h2; omega)
    · rw [Bool.not_eq_true] at h0
      simp [sendAll, h0] at h

theorem commitPayloads_eq_claim :
    ∀ m, m < 256 → (commitPayloads m).map RELAY_CMD = claimFrames m := by decide

/-- C1: for every `targetMask` in 0..255, `relayboard_send_status` over a
fully successful transport emits exactly 27 frames, in the fixed order of
the spec (header `encode(0x00)`; per bit from 128 down to 1 the on-triple
`0x20, 0x28, 0x20` or the off-triple `0x00, 0x08, 0x00`; trailer
`encode(0x00), encode(0x01)`), each frame being
`{0xa1,0x6a,0x1f,0x00,0x10,payload,0x3f,0,0,0,0}`; the sequence is a pure
function of `targetMask` (the prior shadow state `s` is arbitrary). -/
theorem relay_commit_frames_spec (m s : Nat) (hm : m < 256) :
    emittedFrames allOk s m = claimFrames m ∧ (emittedFrames allOk s m).length = 27 := by
  have hall : sendAll allOk 1 (commitPayloads m) = (true, commitPayloads m) :=
    sendAll_ok allOk (commitPayloads m) 1 (fun j _ _ => rfl)
  have he : emittedFrames allOk s m = (commitPayloads m).map RELAY_CMD := by
    simp [emittedFrames, relayboard_send_status, hall]
  rw [he]
  refine ⟨commitPayloads_eq_claim m hm, ?_⟩
  rw [List.length_map, commitPayloads_length]

/-- Witness for C1 at `targetMask = 5`. -/
theorem relay_commit_frames_spec_witness :
    emittedFrames allOk 0 5 = claimFrames 5 ∧ (emittedFrames allOk 0 5).length = 27 :=
  relay_commit_frames_spec 5 0 (by decide)

/-- C2: if the transport fails at frame `k` of a commit (1 ≤ k ≤ 27) —
either the bulk transfer fails or the acknowledged length differs from 11 —
then `relayboard_write` stops right there (exactly the first `k` frame
payloads are handed to the transport), returns failure (`-EFAULT`), and the
device's shadow state is unchanged, so a subsequent `getMask` returns the
pre-call mask. -/
theorem relay_commit_abort_preserves_shadow (tr : Nat → Option Nat) (dev : UsbRelayboard)
    (input : List Char) (cnt k : Nat) (hk1 : 1 ≤ k) (hk2 : k ≤ 27)
    (hok : ∀ j, 1 ≤ j → j < k → send_relay_cmd tr j = true)
    (hf : send_relay_cmd tr k = false) :
    relayboard_write tr dev input cnt =
      (-14, dev, (commitPayloads (userData input)).take k) ∧
    ((commitPayloads (userData input)).take k).length = k ∧
    getMask (relayboard_write tr dev input cnt).2.1 = getMask dev := by
  have hfail : sendAll tr 1 (commitPayloads (userData input)) =
      (false, (commitPayloads (userData input)).take k) := by
    have h := sendAll_fail tr (commitPayloads (userData input)) 1 (k - 1)
      (by rw [commitPayloads_length]; omega)
      (fun j hj => hok (1 + j) (by omega) (by omega))
      (by rwa [show 1 + (k - 1) = k by omega])
    rwa [show k - 1 + 1 = k by omega] at h
  have heq : relayboard_write tr dev input cnt =
      (-14, dev, (commitPayloads (userData input)).take k) := by
    simp [relayboard_write, relayboard_send_status, hfail]
  refine ⟨heq, ?_, by rw [heq]⟩
  rw [List.length_take, commitPayloads_length]
  omega

/-- Witness for C2: a transport whose very first bulk transfer fails. -/
theorem relay_commit_abort_preserves_shadow_witness :
    relayboard_write (fun _ => none) ⟨3, true⟩ ['9'] 1 = (-14, ⟨3, true⟩, [0x00]) ∧
    ((commitPayloads (userData ['9'])).take 1).length = 1 ∧
    getMask (relayboard_write (fun _ => none) ⟨3, true⟩ ['9'] 1).2.1 = getMask ⟨3, true⟩ :=
  relay_commit_abort_preserves_shadow (fun _ => none) ⟨3, true⟩ ['9'] 1 1
    (Nat.le_refl 1) (by omega)
    (fun j h1 h2 => absurd h2 (Nat.not_lt.mpr h1)) rfl

/-- A system event against one device: a `write` syscall (with its
transport oracle, user buffer and byte count) or a `read` syscall through
the handle numbered `h` (with buffer size, jiffies timestamp and
`copy_to_user` shortfall). -/
inductive Ev where
  | wr (tr : Nat → Option Nat) (input : List Char) (count : Nat)
  | rd (h count timestamp copyFail : Nat)

/-- An event that cannot commit a new mask: any read, or a write whose
transport fails somewhere inside the 27-frame sequence. -/
def noCommit : Ev → Prop
  | .wr tr _ _ => ¬ commitOk tr
  | .rd _ _ _ _ => True

/-- A device together with the `file_additions` of every open handle
(`handles h` is the `last_call` field of handle `h`); handles are
per-open structures allocated by `relayboard_open`. -/
structure SysState where
  dev : UsbRelayboard
  handles : Nat → Nat

/-- Effect of one syscall on the system state: `relayboard_write` updates
the shared device, `relayboard_read` updates only the calling handle's
`last_call`. -/
def stepEv (HZ : Nat) (st : SysState) : Ev → SysState
  | .wr tr input count =>
    { st with dev := (relayboard_write tr st.dev input count).2.1 }
  | .rd h count timestamp copyFail =>
    let r := relayboard_read HZ st.dev ⟨st.handles h⟩ count timestamp copyFail
    { st with handles := fun k => if k = h then r.2.1.last_call else st.handles k }

theorem read_smallbuf (HZ : Nat) (dev : UsbRelayboard) (fi : FileAdditions)
    (c now cf : Nat) (h4 : c < 4) :
    relayboard_read HZ dev fi c now cf = (0, fi, []) := by
  unfold relayboard_read
  rw [if_pos h4]

theorem read_throttled (HZ : Nat) (dev : UsbRelayboard) (fi : FileAdditions)
    (c now cf : Nat) (h4 : ¬ c < 4)
    (hth : timePassed fi.last_call now < RELAY_READ_FREQ_MAX HZ) :
    relayboard_read HZ dev fi c now cf = (0, fi, []) := by
  unfold relayboard_read
  rw [if_neg h4, if_pos hth]

theorem read_delivers (HZ : Nat) (dev : UsbRelayboard) (fi : FileAdditions)
    (c now : Nat) (h4 : 4 ≤ c)
    (hth : RELAY_READ_FREQ_MAX HZ ≤ timePassed fi.last_call now) :
    relayboard_read HZ dev fi c now 0 =
      (((stateChars dev.relay_states).length : Int), ⟨now⟩, stateChars dev.relay_states) := by
  unfold relayboard_read
  rw [if_neg (by omega), if_neg (by omega)]
  simp

theorem timePassed_of_le (last now : Nat) (h : last ≤ now) :
    timePassed last now = now - last := by
  unfold timePassed
  rw [if_neg (Nat.not_lt.mpr h)]

theorem write_commits (tr : Nat → Option Nat) (dev : UsbRelayboard)
    (input : List Char) (cnt : Nat) (hc : commitOk tr) :
    relayboard_write tr dev input cnt =
      ((cnt : Int), ⟨userData input, dev.interface_present⟩,
        commitPayloads (userData input)) := by
  have hall : sendAll tr 1 (commitPayloads (userData input)) =
      (true, commitPayloads (userData input)) :=
    sendAll_ok tr _ 1
      (fun j h1 h2 => hc j h1 (by rw [commitPayloads_length] at h2; omega))
  simp [relayboard_write, relayboard_send_status, hall]

theorem stepEv_preserves (HZ : Nat) (st : SysState) (e : Ev) (he : noCommit e) :
    (stepEv HZ st e).dev.relay_states = st.dev.relay_states := by
  cases e with
  | rd h c now cf => rfl
  | wr tr input cnt =>
    cases hsa : sendAll tr 1 (commitPayloads (userData input)) with
    | mk b fs =>
      cases b with
      | true =>
        exfalso
        apply he
        intro j h1 h2
        apply sendAll_true_all tr (commitPayloads (userData input)) 1
          (by rw [hsa]) j h1
        rw [commitPayloads_length]
        omega
      | false =>
        simp [stepEv, relayboard_write, relayboard_send_status, hsa]

theorem foldEv_preserves (HZ : Nat) :
    ∀ (p : List Ev) (st : SysState), (∀ e ∈ p, noCommit e) →
      (p.foldl (stepEv HZ) st).dev.relay_states = st.dev.relay_states := by
  intro p
  induction p with
  | nil => intro st _; rfl
  | cons e es ih =>
    intro st hp
    rw [List.foldl_cons,
      ih (stepEv HZ st e) (fun x hx => hp x (List.mem_cons_of_mem e hx))]
    exact stepEv_preserves HZ st e (hp e (List.mem_cons_self e es))

/-- C3: after a successful `setMask` (`relayboard_write` whose 27-frame
sequence all goes through), the device's shadow mask equals the committed
byte, and it stays that value across any further events none of which is a
successful write; a `relayboard_read` through any handle (`fi` arbitrary)
that passes the buffer and throttle checks then delivers exactly that
mask. -/
theorem relay_setMask_then_getMask (HZ : Nat) (st : SysState) (tr : Nat → Option Nat)
    (input : List Char) (cnt : Nat) (p : List Ev) (st2 : SysState)
    (hc : commitOk tr) (hp : ∀ e ∈ p, noCommit e)
    (hst2 : st2 = p.foldl (stepEv HZ) (stepEv HZ st (Ev.wr tr input cnt))) :
    getMask st2.dev = userData input ∧
    (∀ (fi : FileAdditions) (c now : Nat), 4 ≤ c →
      RELAY_READ_FREQ_MAX HZ ≤ timePassed fi.last_call now →
      relayboard_read HZ st2.dev fi c now 0 =
        (((stateChars (userData input)).length : Int), ⟨now⟩,
          stateChars (userData input))) := by
  have h1 : (stepEv HZ st (Ev.wr tr input cnt)).dev.relay_states = userData input := by
    simp [stepEv, write_commits tr st.dev input cnt hc]
  have h2 : getMask st2.dev = userData input := by
    rw [hst2]
    show (p.foldl (stepEv HZ) (stepEv HZ st (Ev.wr tr input cnt))).dev.relay_states = _
    rw [foldEv_preserves HZ p _ hp, h1]
  refine ⟨h2, fun fi c now h4 hth => ?_⟩
  rw [read_delivers HZ st2.dev fi c now h4 hth]
  rw [show st2.dev.relay_states = userData input from h2]

/-- Witness for C3: commit mask 5 on a fresh device, then one read event
through handle 0; a read through handle 7 afterwards delivers the digits
of 5. -/
theorem relay_setMask_then_getMask_witness :
    getMask (([Ev.rd 0 4 300 0].foldl (stepEv 250)
      (stepEv 250 ⟨⟨0, true⟩, fun _ => 0⟩ (Ev.wr allOk ['5'] 1))).dev) = 5 ∧
    (∀ (fi : FileAdditions) (c now : Nat), 4 ≤ c →
      RELAY_READ_FREQ_MAX 250 ≤ timePassed fi.last_call now →
      relayboard_read 250 (([Ev.rd 0 4 300 0].foldl (stepEv 250)
          (stepEv 250 ⟨⟨0, true⟩, fun _ => 0⟩ (Ev.wr allOk ['5'] 1))).dev) fi c now 0 =
        ((2 : Int), ⟨now⟩, ['5', '\n'])) :=
  relay_setMask_then_getMask 250 ⟨⟨0, true⟩, fun _ => 0⟩ allOk ['5'] 1
    [Ev.rd 0 4 300 0] _ (fun j _ _ => rfl)
    (fun e he => by
      cases he with
      | head => exact trivial
      | tail _ hx => cases hx)
    rfl

/-- C4 counterexample: on a detached device (`interface_present = false`,
as after `relayboard_disconnect`), a read with a valid buffer past the
throttle window succeeds and returns the shadow state (2 bytes, "5" and
newline) instead of failing, and a write drives the full 27-frame command
sequence and returns success instead of failing with `DeviceGone` without
issuing commands. -/
theorem relay_detach_claim_counterexample :
    (relayboard_read 250 ⟨5, false⟩ ⟨0⟩ 4 125 0).1 = 2 ∧
    (relayboard_read 250 ⟨5, false⟩ ⟨0⟩ 4 125 0).2.2 = ['5', '\n'] ∧
    (relayboard_write allOk ⟨5, false⟩ ['7'] 1).2.2.length = 27 ∧
    (relayboard_write allOk ⟨5, false⟩ ['7'] 1).1 = 1 := by decide

/-- C4 as amended: the driver performs no liveness check after detach.
`relayboard_read` on a detached device still delivers the shadow state,
and `relayboard_write` behaves identically (same return value, same
frames, same resulting shadow state) whether or not the interface is
present; with a working transport it still issues all 27 frames. -/
theorem relay_detach_no_liveness_check (HZ s last cnt now c : Nat)
    (tr : Nat → Option Nat) (input : List Char)
    (h4 : 4 ≤ cnt) (hth : RELAY_READ_FREQ_MAX HZ ≤ timePassed last now) :
    relayboard_read HZ ⟨s, false⟩ ⟨last⟩ cnt now 0 =
      (((stateChars s).length : Int), ⟨now⟩, stateChars s) ∧
    (relayboard_write tr ⟨s, false⟩ input c).1 =
      (relayboard_write tr ⟨s, true⟩ input c).1 ∧
    (relayboard_write tr ⟨s, false⟩ input c).2.2 =
      (relayboard_write tr ⟨s, true⟩ input c).2.2 ∧
    (relayboard_write tr ⟨s, false⟩ input c).2.1.relay_states =
      (relayboard_write tr ⟨s, true⟩ input c).2.1.relay_states ∧
    (relayboard_write allOk ⟨s, false⟩ input c).2.2.length = 27 := by
  refine ⟨read_delivers HZ ⟨s, false⟩ ⟨last⟩ cnt now h4 hth, ?_, ?_, ?_, ?_⟩
  · by_cases hr : (relayboard_send_status tr s (userData input)).1 = 0 <;>
      simp [relayboard_write, hr]
  · by_cases hr : (relayboard_send_status tr s (userData input)).1 = 0 <;>
      simp [relayboard_write, hr]
  · by_cases hr : (relayboard_send_status tr s (userData input)).1 = 0 <;>
      simp [relayboard_write, hr]
  · rw [write_commits allOk ⟨s, false⟩ input c (fun j _ _ => rfl)]
    exact commitPayloads_length (userData input)

/-- Witness for C4's amended statement at concrete inputs. -/
theorem relay_detach_no_liveness_check_witness :
    relayboard_read 250 ⟨5, false⟩ ⟨0⟩ 4 125 0 = ((2 : Int), ⟨125⟩, ['5', '\n']) ∧
    (relayboard_write allOk ⟨5, false⟩ ['7'] 1).1 =
      (relayboard_write allOk ⟨5, true⟩ ['7'] 1).1 ∧
    (relayboard_write allOk ⟨5, false⟩ ['7'] 1).2.2 =
      (relayboard_write allOk ⟨5, true⟩ ['7'] 1).2.2 ∧
    (relayboard_write allOk ⟨5, false⟩ ['7'] 1).2.1.relay_states =
      (relayboard_write allOk ⟨5, true⟩ ['7'] 1).2.1.relay_states ∧
    (relayboard_write allOk ⟨5, false⟩ ['7'] 1).2.2.length = 27 :=
  relay_detach_no_liveness_check 250 5 0 4 125 1 allOk ['7']
    (by omega) (by decide)

/-- C6 counterexample: `last_call` is zero-initialized by `kzalloc`, not a
"never" sentinel; with HZ = 250 the very first read after open, at jiffies
0 with a 4-byte buffer, is throttled and delivers nothing, although the
claim requires the first read after open to return the shadow mask
(`stateChars 5`). -/
theorem relay_first_read_counterexample :
    relayboard_read 250 ⟨5, true⟩ ⟨0⟩ 4 0 0 = (0, ⟨0⟩, []) ∧
    (relayboard_read 250 ⟨5, true⟩ ⟨0⟩ 4 0 0).2.2 ≠ stateChars 5 := by decide

/-- C6 as amended: `last_call` starts at 0 (there is no "never" value).
With a big-enough buffer, a read delivers nothing when the wrap-aware
elapsed time since `last_call` is under HZ/2 and otherwise delivers the
shadow mask and sets `last_call := now`; since `timePassed 0 now = now`,
the first read after open delivers only once `now ≥ HZ/2`.  When a first
read at `t1` delivered data, a second read less than HZ/2 later delivers
nothing; and whenever `last_call ≤ t1 ≤ t2` with `t2 - t1 ≥ HZ/2`, the
read at `t2` (after the one at `t1`, whatever its outcome) delivers the
shadow mask. -/
theorem relay_read_throttle_semantics (HZ : Nat) (dev : UsbRelayboard)
    (last cnt now t1 t2 cf : Nat) :
    (4 ≤ cnt → timePassed last now < RELAY_READ_FREQ_MAX HZ →
      relayboard_read HZ dev ⟨last⟩ cnt now cf = (0, ⟨last⟩, [])) ∧
    (4 ≤ cnt → RELAY_READ_FREQ_MAX HZ ≤ timePassed last now →
      relayboard_read HZ dev ⟨last⟩ cnt now 0 =
        (((stateChars dev.relay_states).length : Int), ⟨now⟩,
          stateChars dev.relay_states)) ∧
    timePassed 0 now = now ∧
    (4 ≤ cnt → RELAY_READ_FREQ_MAX HZ ≤ timePassed last t1 → t1 ≤ t2 →
      t2 - t1 < RELAY_READ_FREQ_MAX HZ →
      relayboard_read HZ dev ((relayboard_read HZ dev ⟨last⟩ cnt t1 0).2.1) cnt t2 0 =
        (0, ⟨t1⟩, [])) ∧
    (4 ≤ cnt → last ≤ t1 → t1 ≤ t2 → RELAY_READ_FREQ_MAX HZ ≤ t2 - t1 →
      (relayboard_read HZ dev ((relayboard_read HZ dev ⟨last⟩ cnt t1 0).2.1) cnt t2 0).2.2 =
        stateChars dev.relay_states) := by
  refine ⟨?_, ?_, ?_, ?_, ?_⟩
  · intro h4 hth
    exact read_throttled HZ dev ⟨last⟩ cnt now cf (by omega) hth
  · intro h4 hth
    exact read_delivers HZ dev ⟨last⟩ cnt now h4 hth
  · exact timePassed_of_le 0 now (Nat.zero_le now)
  · intro h4 hth hle hlt
    rw [read_delivers HZ dev ⟨last⟩ cnt t1 h4 hth]
    apply read_throttled HZ dev ⟨t1⟩ cnt t2 0 (by omega)
    rw [timePassed_of_le t1 t2 hle]
    exact hlt
  · intro h4 hl1 hle hge
    by_cases hth : timePassed last t1 < RELAY_READ_FREQ_MAX HZ
    · rw [read_throttled HZ dev ⟨last⟩ cnt t1 0 (by omega) hth]
      rw [read_delivers HZ dev ⟨last⟩ cnt t2 h4 ?_]
      rw [timePassed_of_le last t2 (Nat.le_trans hl1 hle)]
      omega
    · rw [read_delivers HZ dev ⟨last⟩ cnt t1 h4
        (by show RELAY_READ_FREQ_MAX HZ ≤ timePassed last t1; omega)]
      rw [read_delivers HZ dev ⟨t1⟩ cnt t2 h4 ?_]
      rw [timePassed_of_le t1 t2 hle]
      exact hge

/-- Witness for C6's amended statement: a throttled read at jiffies 0 and
a delivering read at jiffies 125 on the same fresh handle (HZ = 250). -/
theorem relay_read_throttle_semantics_witness :
    relayboard_read 250 ⟨5, true⟩ ⟨0⟩ 4 0 0 = (0, ⟨0⟩, []) ∧
    relayboard_read 250 ⟨5, true⟩ ⟨0⟩ 4 125 0 = ((2 : Int), ⟨125⟩, ['5', '\n']) :=
  ⟨(relay_read_throttle_semantics 250 ⟨5, true⟩ 0 4 0 0 0 0).1 (by omega) (by decide),
   (relay_read_throttle_semantics 250 ⟨5, true⟩ 0 4 125 0 0 0).2.1 (by omega) (by decide)⟩

/-- C7: handles have independent throttle timers.  A read through handle
`h` leaves the `last_call` of a different handle `h2` unchanged, and the
outcome of the next read through `h2` is exactly what it would have been
without the read through `h`. -/
theorem relay_handle_timers_independent (HZ : Nat) (st : SysState)
    (h h2 c now cf c2 now2 cf2 : Nat) (hne : h ≠ h2) :
    (stepEv HZ st (Ev.rd h c now cf)).handles h2 = st.handles h2 ∧
    relayboard_read HZ (stepEv HZ st (Ev.rd h c now cf)).dev
        ⟨(stepEv HZ st (Ev.rd h c now cf)).handles h2⟩ c2 now2 cf2 =
      relayboard_read HZ st.dev ⟨st.handles h2⟩ c2 now2 cf2 := by
  have hh : (stepEv HZ st (Ev.rd h c now cf)).handles h2 = st.handles h2 := by
    simp only [stepEv]
    rw [if_neg (Ne.symm hne)]
  have hd : (stepEv HZ st (Ev.rd h c now cf)).dev = st.dev := rfl
  exact ⟨hh, by rw [hh, hd]⟩

/-- Witness for C7: handle 0 reads; handle 1 is unaffected. -/
theorem relay_handle_timers_independent_witness :
    (stepEv 250 ⟨⟨5, true⟩, fun _ => 0⟩ (Ev.rd 0 4 200 0)).handles 1 = 0 ∧
    relayboard_read 250 (stepEv 250 ⟨⟨5, true⟩, fun _ => 0⟩ (Ev.rd 0 4 200 0)).dev
        ⟨(stepEv 250 ⟨⟨5, true⟩, fun _ => 0⟩ (Ev.rd 0 4 200 0)).handles 1⟩ 4 210 0 =
      relayboard_read 250 ⟨5, true⟩ ⟨0⟩ 4 210 0 :=
  relay_handle_timers_independent 250 ⟨⟨5, true⟩, fun _ => 0⟩ 0 1 4 200 0 4 210 0
    (by omega)

/-- Value of a decimal string read the way the spec describes ("parse as
an unsigned integer"): same digits and stopping rule as the driver's
parser, but with unbounded arithmetic. -/
def decVal : List Char → Nat → Nat
  | [], acc => acc
  | c :: cs, acc => if c.isDigit then decVal cs (acc * 10 + (c.toNat - 48)) else acc

theorem parseDigits_mod (cs : List Char) :
    ∀ a b : Nat, a % 256 = b % 256 → parseDigits cs a % 256 = decVal cs b % 256 := by
  induction cs with
  | nil => intro a b h; exact h
  | cons c cs ih =>
    intro a b h
    by_cases hd : c.isDigit
    · simp only [parseDigits, decVal, hd, if_true]
      apply ih
      rw [Nat.mod_mod_of_dvd _ (by norm_num : (256 : Nat) ∣ 2 ^ 64)]
      have hm : (a * 10 + (c.toNat - 48)) % 256 = (b * 10 + (c.toNat - 48)) % 256 :=
        Nat.ModEq.add_right _ (Nat.ModEq.mul_right 10 h)
      exact hm
    · simp only [parseDigits, decVal, hd, if_false]
      exact h

/-- C8: the write interface parses its buffer as a decimal unsigned
integer and keeps only the low 8 bits (`value mod 256`) as the committed
mask: `userData` always equals the unbounded decimal value mod 256, a
write over a working transport commits exactly that byte, and concretely
writing "300" commits mask 44 after which a read (4-byte buffer, past the
throttle) returns "44" followed by newline. -/
theorem relay_write_parse_truncate :
    (∀ input : List Char, userData input = decVal input 0 % 256) ∧
    (∀ (dev : UsbRelayboard) (input : List Char) (cnt : Nat),
      (relayboard_write allOk dev input cnt).2.1.relay_states = decVal input 0 % 256) ∧
    relayboard_write allOk ⟨0, true⟩ ['3', '0', '0'] 3 = (3, ⟨44, true⟩, commitPayloads 44) ∧
    relayboard_read 250 ⟨44, true⟩ ⟨0⟩ 4 125 0 = ((3 : Int), ⟨125⟩, ['4', '4', '\n']) := by
  have hu : ∀ input : List Char, userData input = decVal input 0 % 256 := by
    intro input
    have := parseDigits_mod input 0 0 rfl
    simpa [userData] using this
  refine ⟨hu, fun dev input cnt => ?_, by decide, by decide⟩
  rw [write_commits allOk dev input cnt (fun j _ _ => rfl)]
  exact hu input

/-- C9 (evaluating the code at the failing input): `relayboard_open` calls
`kref_get` before allocating the per-open `file_additions` and does not
release the reference when that allocation fails, so a failed open returns
`-ENOMEM` with the device's reference count incremented — not equal to its
pre-call value as the claim requires. -/
theorem relay_open_alloc_failure_leaks_ref :
    (∀ n : Nat, relayboard_open true true false n = (-12, n + 1, false)) ∧
    (∀ n : Nat, n + 1 ≠ n) :=
  ⟨fun n => rfl, fun n => by omega⟩

/-- C10 counterexample: a read that passes the buffer and throttle checks
but whose `copy_to_user` copies nothing returns zero bytes yet still sets
`last_call := timestamp` (here from 0 to 125), so "lastReadAt is updated
only by a read that delivers data" fails on the code. -/
theorem relay_copyfail_read_counterexample :
    (relayboard_read 250 ⟨5, true⟩ ⟨0⟩ 4 125 2).1 = 0 ∧
    (relayboard_read 250 ⟨5, true⟩ ⟨0⟩ 4 125 2).2.2 = [] ∧
    (relayboard_read 250 ⟨5, true⟩ ⟨0⟩ 4 125 2).2.1.last_call = 125 ∧
    (125 : Nat) ≠ 0 := by decide

/-- C10 as amended: a read rejected by the buffer-size check or by the
throttle leaves `last_call` unchanged (and returns zero bytes), while
every read that passes both checks sets `last_call := timestamp` — even
one whose `copy_to_user` fails and therefore returns zero bytes.  So the
throttle interval is measured from the last read that passed the checks,
and throttled polling cannot postpone the next successful read. -/
theorem relay_zero_read_timestamp (HZ : Nat) (dev : UsbRelayboard)
    (last cnt now cf : Nat) :
    (cnt < 4 → relayboard_read HZ dev ⟨last⟩ cnt now cf = (0, ⟨last⟩, [])) ∧
    (4 ≤ cnt → timePassed last now < RELAY_READ_FREQ_MAX HZ →
      relayboard_read HZ dev ⟨last⟩ cnt now cf = (0, ⟨last⟩, [])) ∧
    (4 ≤ cnt → RELAY_READ_FREQ_MAX HZ ≤ timePassed last now →
      (relayboard_read HZ dev ⟨last⟩ cnt now cf).2.1.last_call = now) := by
  refine ⟨fun h4 => read_smallbuf HZ dev ⟨last⟩ cnt now cf h4,
    fun h4 hth => read_throttled HZ dev ⟨last⟩ cnt now cf (by omega) hth,
    fun h4 hth => ?_⟩
  unfold relayboard_read
  rw [if_neg (by omega),
    if_neg (by show ¬ timePassed last now < RELAY_READ_FREQ_MAX HZ; omega)]

/-- Witness for C10's amended statement: a throttled read keeps
`last_call = 0`; a passing read with failing copy-out sets it to 125. -/
theorem relay_zero_read_timestamp_witness :
    relayboard_read 250 ⟨5, true⟩ ⟨0⟩ 4 100 2 = (0, ⟨0⟩, []) ∧
    (relayboard_read 250 ⟨5, true⟩ ⟨0⟩ 4 125 2).2.1.last_call = 125 :=
  ⟨(relay_zero_read_timestamp 250 ⟨5, true⟩ 0 4 100 2).2.1 (by omega) (by decide),
   (relay_zero_read_timestamp 250 ⟨5, true⟩ 0 4 125 2).2.2 (by omega) (by decide)⟩

/-- Lifecycle events on one device: a successful open (`kref_get` plus
handle creation), a close (`kref_put`), and the disconnect (which drops
the registration reference with `kref_put`). -/
inductive LEv where
  | opn
  | cls
  | disc
deriving DecidableEq

/-- The kref-related state of one `usb_relayboard`: the reference count,
whether `relayboard_disconnect` has run, and whether `relayboard_free`
has run. -/
structure KState where
  count : Nat
  detached : Bool
  freed : Bool
deriving DecidableEq

/-- The call `kref_put(&dev->kref, relayboard_free)`: decrement the
count and free the object when it reaches zero. -/
def kref_put (s : KState) : KState :=
  { s with count := s.count - 1, freed := s.freed || decide (s.count - 1 = 0) }

/-- One lifecycle event: `relayboard_open` does `kref_get`;
`relayboard_close` does `kref_put`; `relayboard_disconnect` marks the
interface gone and then does `kref_put`. -/
def kstep (s : KState) : LEv → KState
  | .opn => { s with count := s.count + 1 }
  | .cls => kref_put s
  | .disc => kref_put { s with detached := true }

/-- The state right after `kref_init` in `relayboard_probe`: one
registration reference. -/
def initK : KState := ⟨1, false, false⟩

/-- Well-formedness of a lifecycle trace, parameterized by the numbers of
opens, closes and disconnects already performed: a close matches a
previously opened and not yet closed handle, the disconnect happens at
most once, and no open succeeds after disconnect (it fails with
`-ENODEV` then, without touching the kref). -/
def WFrun : Nat → Nat → Nat → List LEv → Prop
  | _, _, _, [] => True
  | o, c, d, .opn :: es => d = 0 ∧ WFrun (o + 1) c d es
  | o, c, d, .cls :: es => c < o ∧ WFrun o (c + 1) d es
  | o, c, d, .disc :: es => d = 0 ∧ WFrun o c 1 es

/-- The kref state reached after `o` opens, `c` closes and `d`
disconnects have been processed from the initial state. -/
def stateOf (o c d : Nat) : KState :=
  ⟨1 + o - c - d, decide (d = 1), decide (d = 1 ∧ o = c)⟩

theorem WFrun_append :
    ∀ (p q : List LEv) (o c d : Nat), WFrun o c d (p ++ q) → WFrun o c d p := by
  intro p
  induction p with
  | nil => intro q o c d _; trivial
  | cons e es ih =>
    intro q o c d hwf
    cases e with
    | opn => exact ⟨hwf.1, ih q _ _ _ hwf.2⟩
    | cls => exact ⟨hwf.1, ih q _ _ _ hwf.2⟩
    | disc => exact ⟨hwf.1, ih q _ _ _ hwf.2⟩

theorem WFrun_fold :
    ∀ (evs : List LEv) (o c d : Nat), WFrun o c d evs → c ≤ o → d ≤ 1 →
      evs.foldl kstep (stateOf o c d) =
        stateOf (o + evs.count LEv.opn) (c + evs.count LEv.cls)
          (d + evs.count LEv.disc) := by
  intro evs
  induction evs with
  | nil => intro o c d _ _ _; simp
  | cons e es ih =>
    intro o c d hwf hc hd
    cases e with
    | opn =>
      obtain ⟨hd0, hwf2⟩ := hwf
      subst hd0
      have hstep : kstep (stateOf o c 0) LEv.opn = stateOf (o + 1) c 0 := by
        simp only [kstep, stateOf]
        congr 1
        omega
      rw [List.foldl_cons, hstep, ih (o + 1) c 0 hwf2 (by omega) (by omega)]
      have h1 : (LEv.opn :: es).count LEv.opn = es.count LEv.opn + 1 := by
        simp [List.count_cons]
      have h2 : (LEv.opn :: es).count LEv.cls = es.count LEv.cls := by
        simp [List.count_cons]
      have h3 : (LEv.opn :: es).count LEv.disc = es.count LEv.disc := by
        simp [List.count_cons]
      rw [h1, h2, h3]
      congr 1
      omega
    | cls =>
      obtain ⟨hco, hwf2⟩ := hwf
      have hstep : kstep (stateOf o c d) LEv.cls = stateOf o (c + 1) d := by
        simp only [kstep, kref_put, stateOf]
        congr 1
        · omega
        · rw [← Bool.decide_or, decide_eq_decide]
          omega
      rw [List.foldl_cons, hstep, ih o (c + 1) d hwf2 (by omega) hd]
      have h1 : (LEv.cls :: es).count LEv.opn = es.count LEv.opn := by
        simp [List.count_cons]
      have h2 : (LEv.cls :: es).count LEv.cls = es.count LEv.cls + 1 := by
        simp [List.count_cons]
      have h3 : (LEv.cls :: es).count LEv.disc = es.count LEv.disc := by
        simp [List.count_cons]
      rw [h1, h2, h3]
      congr 1
      omega
    | disc =>
      obtain ⟨hd0, hwf2⟩ := hwf
      subst hd0
      have hstep : kstep (stateOf o c 0) LEv.disc = stateOf o c 1 := by
        simp only [kstep, kref_put, stateOf]
        congr 1
        rw [← Bool.decide_or, decide_eq_decide]
        simp only [true_and]
        omega
      rw [List.foldl_cons, hstep, ih o c 1 hwf2 hc (by omega)]
      have h1 : (LEv.disc :: es).count LEv.opn = es.count LEv.opn := by
        simp [List.count_cons]
      have h2 : (LEv.disc :: es).count LEv.cls = es.count LEv.cls := by
        simp [List.count_cons]
      have h3 : (LEv.disc :: es).count LEv.disc = es.count LEv.disc + 1 := by
        simp [List.count_cons]
      rw [h1, h2, h3]
      congr 1
      omega

/-- C5: over any well-formed lifecycle trace (`p` followed by possible
further events `q`), starting from `kref_init`, the reference count after
`p` is 1 + opens − closes − disconnects, the session has been freed
exactly when the disconnect has been processed and every open has been
matched by a close (that is, exactly when the count has reached zero),
and in particular it is never freed while some opened handle has not yet
closed. -/
theorem relay_kref_lifecycle (p q : List LEv) (hwf : WFrun 0 0 0 (p ++ q)) :
    (p.foldl kstep initK).count =
      1 + p.count LEv.opn - p.count LEv.cls - p.count LEv.disc ∧
    (p.foldl kstep initK).freed =
      decide (p.count LEv.disc = 1 ∧ p.count LEv.opn = p.count LEv.cls) ∧
    (p.count LEv.cls < p.count LEv.opn → (p.foldl kstep initK).freed = false) := by
  have hwfp : WFrun 0 0 0 p := WFrun_append p q 0 0 0 hwf
  have h := WFrun_fold p 0 0 0 hwfp (Nat.le_refl 0) (by omega)
  have hinit : initK = stateOf 0 0 0 := rfl
  rw [hinit, h]
  simp only [stateOf, Nat.zero_add]
  refine ⟨by trivial, by trivial, fun hlt => ?_⟩
  simp only [decide_eq_false_iff_not]
  rintro ⟨-, h2⟩
  omega

/-- Witness for C5: open, disconnect, close frees the object (count 0);
after open and disconnect only, the handle is still open and the object
is not freed. -/
theorem relay_kref_lifecycle_witness :
    ([LEv.opn, LEv.disc, LEv.cls].foldl kstep initK).count = 0 ∧
    ([LEv.opn, LEv.disc, LEv.cls].foldl kstep initK).freed = true ∧
    ([LEv.opn, LEv.disc].foldl kstep initK).freed = false := by
  have h1 := relay_kref_lifecycle [LEv.opn, LEv.disc, LEv.cls] []
    (by simp [WFrun])
  have h2 := relay_kref_lifecycle [LEv.opn, LEv.disc] [LEv.cls]
    (by simp [WFrun])
  refine ⟨?_, ?_, h2.2.2 (by decide)⟩
  · rw [h1.1]; decide
  · rw [h1.2.1]; decide

end AbacomRelay
